import Mathlib

/-!
# A verification development for the socksproxy repository

Shallow embedding of the encrypted-transport layer and the SOCKS5 protocol
parsers of the `socksproxy` program (files `cipher.go`, `conn.go`, and the
byte-pool file), together with theorems settling the specification claims.

Modelling conventions:
* bytes are `Nat` values (callers keep them below 256; the XOR/shift
  arithmetic is taken modulo nothing unless the Go code masks);
* byte strings (Go `[]byte` and `string` used as byte strings) are `List Nat`;
* the AES block-encryption permutation produced by `aes.NewCipher(key)` is an
  abstract parameter `blockE : List Nat → List Nat`, quantified in theorems,
  since only the CFB feedback structure matters for the claims;
* the random source and the transport reads/writes are oracles: the random IV
  and the byte counts / errors a transport call reports appear as explicit
  arguments, so every function is pure and executable.
-/

/-! ## CFB stream state (crypto/cipher cfb.go, as used by cipher.go) -/

/-- State of one CFB keystream direction, mirroring Go's `cfb` struct:
the block function, the feedback register `next`, the keystream buffer `out`
with read position `outUsed`, and the direction flag. -/
structure CFB where
  blockE : List Nat → List Nat
  next : List Nat
  out : List Nat
  outUsed : Nat
  dir : Bool

/-- One byte of `XORKeyStream` after the refill check: XOR the next keystream
byte, write the feedback byte (ciphertext: the input when decrypting, the
output when encrypting) into the register, advance `outUsed`. -/
def cfbByteCore (s : CFB) (b : Nat) : Nat × CFB :=
  (b ^^^ s.out.getD s.outUsed 0,
   { s with
      next := s.next.set s.outUsed (if s.dir then b else b ^^^ s.out.getD s.outUsed 0),
      outUsed := s.outUsed + 1 })

/-- Refill step of `XORKeyStream`: when the keystream buffer is exhausted,
encrypt the feedback register to obtain fresh keystream bytes. -/
def cfbRefill (s : CFB) : CFB :=
  if s.outUsed = s.out.length then { s with out := s.blockE s.next, outUsed := 0 } else s

/-- Go's `cfb.XORKeyStream`, processed byte by byte; returns the output bytes
and the advanced stream state. -/
def xorKeyStream (s : CFB) : List Nat → List Nat × CFB
  | [] => ([], s)
  | b :: bs =>
    let r := cfbByteCore (cfbRefill s) b
    let rest := xorKeyStream r.2 bs
    (r.1 :: rest.1, rest.2)

/-- `aes.BlockSize`. -/
def aesBlockSize : Nat := 16

/-- `cipher.NewCFBEncrypter(block, iv)`: register seeded with the IV, empty
keystream buffer (forced refill on first byte), encrypt direction. -/
def newCFBEncrypter (E : List Nat → List Nat) (iv : List Nat) : CFB :=
  { blockE := E, next := iv, out := List.replicate aesBlockSize 0,
    outUsed := aesBlockSize, dir := false }

/-- `cipher.NewCFBDecrypter(block, iv)`: same as the encrypter, but the
feedback byte is the incoming ciphertext byte. -/
def newCFBDecrypter (E : List Nat → List Nat) (iv : List Nat) : CFB :=
  { blockE := E, next := iv, out := List.replicate aesBlockSize 0,
    outUsed := aesBlockSize, dir := true }

/-! ## SHA-256 (crypto/sha256, as used by toKey in cipher.go) -/

/-- Right rotation of a 32-bit word. -/
def rotr32 (n x : Nat) : Nat := ((x >>> n) ||| (x <<< (32 - n))) % 4294967296

/-- The 64 SHA-256 round constants, in decimal. -/
def K256 : List Nat :=
  [1116352408, 1899447441, 3049323471, 3921009573,
   961987163, 1508970993, 2453635748, 2870763221,
   3624381080, 310598401, 607225278, 1426881987,
   1925078388, 2162078206, 2614888103, 3248222580,
   3835390401, 4022224774, 264347078, 604807628,
   770255983, 1249150122, 1555081692, 1996064986,
   2554220882, 2821834349, 2952996808, 3210313671,
   3336571891, 3584528711, 113926993, 338241895,
   666307205, 773529912, 1294757372, 1396182291,
   1695183700, 1986661051, 2177026350, 2456956037,
   2730485921, 2820302411, 3259730800, 3345764771,
   3516065817, 3600352804, 4094571909, 275423344,
   430227734, 506948616, 659060556, 883997877,
   958139571, 1322822218, 1537002063, 1747873779,
   1955562222, 2024104815, 2227730452, 2361852424,
   2428436474, 2756734187, 3204031479, 3329325298]

/-- The eight 32-bit words of a SHA-256 hash state. -/
structure H8 where
  a : Nat
  b : Nat
  c : Nat
  d : Nat
  e : Nat
  f : Nat
  g : Nat
  hh : Nat

/-- SHA-256 initial hash value, in decimal. -/
def sha256InitH : H8 :=
  ⟨1779033703, 3144134277, 1013904242, 2773480762,
   1359893119, 2600822924, 528734635, 1541459225⟩

/-- The first 16 words of the message schedule, big-endian from a 64-byte chunk. -/
def chunkWords (c : List Nat) : List Nat :=
  (List.range 16).map fun i =>
    (c.getD (4 * i) 0) <<< 24 ||| (c.getD (4 * i + 1) 0) <<< 16 |||
    (c.getD (4 * i + 2) 0) <<< 8 ||| c.getD (4 * i + 3) 0

/-- Extension of the message schedule to 64 words. -/
def extendW (w0 : List Nat) : Array Nat :=
  (List.range 48).foldl
    (fun w t =>
      let x := w.getD (t + 1) 0
      let y := w.getD (t + 14) 0
      let s0 := rotr32 7 x ^^^ rotr32 18 x ^^^ (x >>> 3)
      let s1 := rotr32 17 y ^^^ rotr32 19 y ^^^ (y >>> 10)
      w.push ((w.getD t 0 + s0 + w.getD (t + 9) 0 + s1) % 4294967296))
    w0.toArray

/-- One SHA-256 compression round. -/
def sha256Round (st : H8) (kw wt : Nat) : H8 :=
  let S1 := rotr32 6 st.e ^^^ rotr32 11 st.e ^^^ rotr32 25 st.e
  let ch := (st.e &&& st.f) ^^^ ((st.e ^^^ 0xffffffff) &&& st.g)
  let t1 := (st.hh + S1 + ch + kw + wt) % 4294967296
  let S0 := rotr32 2 st.a ^^^ rotr32 13 st.a ^^^ rotr32 22 st.a
  let maj := (st.a &&& st.b) ^^^ (st.a &&& st.c) ^^^ (st.b &&& st.c)
  let t2 := (S0 + maj) % 4294967296
  { a := (t1 + t2) % 4294967296, b := st.a, c := st.b, d := st.c,
    e := (st.d + t1) % 4294967296, f := st.e, g := st.f, hh := st.g }

/-- Compression of one 64-byte chunk into the hash state. -/
def sha256Compress (st : H8) (chunk : List Nat) : H8 :=
  let w := extendW (chunkWords chunk)
  let r := (List.range 64).foldl (fun s t => sha256Round s (K256.getD t 0) (w.getD t 0)) st
  { a := (st.a + r.a) % 4294967296, b := (st.b + r.b) % 4294967296,
    c := (st.c + r.c) % 4294967296, d := (st.d + r.d) % 4294967296,
    e := (st.e + r.e) % 4294967296, f := (st.f + r.f) % 4294967296,
    g := (st.g + r.g) % 4294967296, hh := (st.hh + r.hh) % 4294967296 }

/-- Fold the compression function over all 64-byte chunks. -/
def processChunks (st : H8) (msg : List Nat) : H8 :=
  if h : msg = [] then st
  else processChunks (sha256Compress st (msg.take 64)) (msg.drop 64)
termination_by msg.length
decreasing_by
  simp only [List.length_drop]
  have : 0 < msg.length := List.length_pos.mpr h
  omega

/-- Big-endian 8-byte encoding of a 64-bit value. -/
def be64 (n : Nat) : List Nat :=
  [(n >>> 56) % 256, (n >>> 48) % 256, (n >>> 40) % 256, (n >>> 32) % 256,
   (n >>> 24) % 256, (n >>> 16) % 256, (n >>> 8) % 256, n % 256]

/-- SHA-256 padding: a 0x80 byte, zeros to 56 mod 64, and the bit length. -/
def sha256pad (msg : List Nat) : List Nat :=
  msg ++ [128] ++ List.replicate ((119 - msg.length % 64) % 64) 0 ++ be64 (8 * msg.length)

/-- Big-endian 4-byte serialization of a 32-bit word. -/
def w2b (x : Nat) : List Nat :=
  [(x >>> 24) % 256, (x >>> 16) % 256, (x >>> 8) % 256, x % 256]

/-- `sha256.Sum256`: the 32-byte SHA-256 digest of a byte sequence. -/
def sha256 (msg : List Nat) : List Nat :=
  let fin := processChunks sha256InitH (sha256pad msg)
  w2b fin.a ++ w2b fin.b ++ w2b fin.c ++ w2b fin.d ++
  w2b fin.e ++ w2b fin.f ++ w2b fin.g ++ w2b fin.hh

/-! ## Cipher (cipher.go) -/

/-- The UTF-8 bytes of a string, as `[]byte(s)` in Go. -/
def strBytes (s : String) : List Nat := s.toUTF8.toList.map (fun b => b.toNat)

/-- `keyLenMap`: key lengths of the three recognized methods. -/
def keyLenMap : List (String × Nat) :=
  [("aes-128-cfb", 16), ("aes-192-cfb", 24), ("aes-256-cfb", 32)]

/-- `toKey`: SHA-256 digest of the password truncated to the method's key
length, 32 bytes for unrecognized method names. -/
def toKey (method password : String) : List Nat :=
  ((sha256 (strBytes password)).take ((List.lookup method keyLenMap).getD 32))

/-- The key-length check of `aes.NewCipher` (16, 24 or 32 bytes). -/
def validAesKeyLen (n : Nat) : Bool := n == 16 || n == 24 || n == 32

/-- The `Cipher` struct: abstract AES block function for the derived key,
the two optional stream states, and the key. -/
structure Cipher where
  blockE : List Nat → List Nat
  enc : Option CFB
  dec : Option CFB
  key : List Nat

/-- `NewCipher`: derive the key, leave both stream states uninitialized.
`E` stands for the AES block-encryption permutation under that key. -/
def NewCipher (E : List Nat → List Nat) (method password : String) : Cipher :=
  { blockE := E, enc := none, dec := none, key := toKey method password }

/-- `Cipher.initEncrypt`, with the random 16-byte IV supplied by the caller as
the oracle `ivr`: build the AES block (failing on a bad key length), seed the
encrypt keystream, and return the IV for transmission. -/
def initEncrypt (c : Cipher) (ivr : List Nat) : Except String (List Nat × Cipher) :=
  if validAesKeyLen c.key.length then
    .ok (ivr, { c with enc := some (newCFBEncrypter c.blockE ivr) })
  else .error ("crypto/aes: invalid key size " ++ toString c.key.length)

/-- `Cipher.initDecrypt`: build the AES block (failing on a bad key length),
reject an IV whose length is not the block size, otherwise seed the decrypt
keystream. -/
def initDecrypt (c : Cipher) (iv : List Nat) : Except String Cipher :=
  if validAesKeyLen c.key.length then
    if iv.length ≠ aesBlockSize then
      .error ("Invalid IV length: " ++ toString iv.length)
    else .ok { c with dec := some (newCFBDecrypter c.blockE iv) }
  else .error ("crypto/aes: invalid key size " ++ toString c.key.length)

/-! ## Byte pool -/

/-- The `BytePool` struct: fixed buffer size, channel capacity, and the
buffers currently sitting in the channel (front = next to be received). -/
structure BytePool where
  bufSize : Nat
  poolCap : Nat
  pool : List (List Nat)

/-- The pool's fixed buffer size constant. -/
def bufSize : Nat := 4 * 1024

/-- The pool's capacity constant. -/
def poolSize : Nat := 2048

/-- `NewBytePool`: an empty pool. -/
def NewBytePool (bs ps : Nat) : BytePool := { bufSize := bs, poolCap := ps, pool := [] }

/-- The process-wide pool `bytePool` in its initial state. -/
def bytePool : BytePool := NewBytePool bufSize poolSize

/-- `BytePool.Get`: take a pooled buffer if one is available, otherwise
allocate a fresh buffer of the fixed size (the select-default never blocks). -/
def BytePool.Get (bp : BytePool) : List Nat × BytePool :=
  match bp.pool with
  | b :: rest => (b, { bp with pool := rest })
  | [] => (List.replicate bp.bufSize 0, bp)

/-- `BytePool.GetAtLeast`: oversized requests get a one-off allocation. -/
def BytePool.GetAtLeast (bp : BytePool) (size : Nat) : List Nat × BytePool :=
  if bp.bufSize < size then (List.replicate size 0, bp) else bp.Get

/-- `BytePool.Put`: silently discard buffers of the wrong length, and discard
the buffer when the channel is full instead of blocking. -/
def BytePool.Put (bp : BytePool) (b : List Nat) : BytePool :=
  if b.length ≠ bp.bufSize then bp
  else if bp.pool.length < bp.poolCap then { bp with pool := bp.pool ++ [b] }
  else bp

/-! ## Encrypted connection (conn.go) -/

/-- The `Conn` struct: the underlying transport (its pending inbound bytes)
and the cipher. -/
structure Conn where
  input : List Nat
  cipher : Cipher

/-- `NewConn`. -/
def NewConn (input : List Nat) (cipher : Cipher) : Conn :=
  { input := input, cipher := cipher }

/-- Result of `Conn.Read`: the returned count and error, the caller's buffer
after the call, and the connection state after the call. -/
structure ReadRes where
  n : Nat
  err : Option String
  buf : List Nat
  conn : Conn

/-- The ciphertext-reading half of `Conn.Read`, once a decrypt state `st` is
available: a single transport read delivers `min m (min (len buf) available)`
bytes (the oracle `m` models the transport's chunking, `terr` its reported
error); if any bytes arrived they are decrypted into the front of the caller's
buffer. -/
def connReadBody (c : Conn) (st : CFB) (b : List Nat) (m : Nat) (terr : Option String) :
    ReadRes :=
  let mm := min m (min b.length c.input.length)
  if mm = 0 then
    { n := 0, err := terr, buf := b,
      conn := { c with cipher := { c.cipher with dec := some st } } }
  else
    let r := xorKeyStream st (c.input.take mm)
    { n := mm, err := terr, buf := r.1 ++ b.drop mm,
      conn := { input := c.input.drop mm,
                cipher := { c.cipher with dec := some r.2 } } }

/-- `Conn.Read`: when the decrypt state is uninitialized, first consume
exactly `aesBlockSize` bytes from the transport as the IV (an `io.ReadFull`,
failing if fewer are available) and call `initDecrypt`; any failure returns
count 0 with the caller's buffer untouched.  Then perform one transport read
of at most `len b` ciphertext bytes and decrypt them in place. -/
def connRead (c : Conn) (b : List Nat) (m : Nat) (terr : Option String) : ReadRes :=
  match c.cipher.dec with
  | some st => connReadBody c st b m terr
  | none =>
    if c.input.length < aesBlockSize then
      { n := 0, err := some "unexpected EOF", buf := b, conn := { c with input := [] } }
    else
      match initDecrypt c.cipher (c.input.take aesBlockSize) with
      | .error e =>
        { n := 0, err := some e, buf := b,
          conn := { c with input := c.input.drop aesBlockSize } }
      | .ok cip =>
        match cip.dec with
        | some st =>
          connReadBody { input := c.input.drop aesBlockSize, cipher := cip } st b m terr
        | none =>
          { n := 0, err := some "runtime error: invalid memory address", buf := b,
            conn := c }

/-- Result of `Conn.Write`: the returned count and error, the byte sequence
handed to the single underlying transport write, and the connection state. -/
structure WriteRes where
  n : Nat
  err : Option String
  sent : List Nat
  conn : Conn

/-- `Conn.Write`: on the first write, `initEncrypt` produces the IV (the
random oracle `ivr`) and the combined `iv ++ ciphertext` buffer is handed to
one transport write; later writes send only ciphertext.  The transport write
reports `(wn, werr)`, which Write returns unchanged. -/
def connWrite (c : Conn) (b ivr : List Nat) (wn : Nat) (werr : Option String) : WriteRes :=
  match c.cipher.enc with
  | some st =>
    let r := xorKeyStream st b
    { n := wn, err := werr, sent := r.1,
      conn := { c with cipher := { c.cipher with enc := some r.2 } } }
  | none =>
    match initEncrypt c.cipher ivr with
    | .error e => { n := 0, err := some e, sent := [], conn := c }
    | .ok (iv, cip) =>
      match cip.enc with
      | some st =>
        let r := xorKeyStream st b
        { n := wn, err := werr, sent := iv ++ r.1,
          conn := { c with cipher := { cip with enc := some r.2 } } }
      | none =>
        { n := 0, err := some "runtime error: invalid memory address", sent := [],
          conn := c }

/-! ## SOCKS5 front end (conn.go) -/

/-- SOCKS protocol constants. -/
def socksVer5 : Nat := 5

/-- The CONNECT command byte. -/
def cmdConnect : Nat := 1

/-- Address-type tag for IPv4. -/
def typeIPv4 : Nat := 1

/-- Address-type tag for a domain name. -/
def typeDomain : Nat := 3

/-- Address-type tag for IPv6. -/
def typeIPv6 : Nat := 4

/-- `handsake`: `data` is the byte sequence the greeting's `io.ReadAtLeast`
call obtained (fewer than 2 bytes means that call failed).  Checks the
version byte and that the total bytes read equal `2 + NMETHODS`; on success
returns the two reply bytes written back. -/
def handsake (data : List Nat) : Except String (List Nat) :=
  if data.length < 2 then .error "unexpected EOF"
  else if data.getD 0 0 ≠ socksVer5 then
    .error ("expect version 5, got: " ++ toString (data.getD 0 0))
  else if data.length ≠ data.getD 1 0 + 2 then
    .error "fail to parse socks request header"
  else .ok [socksVer5, 0]

/-- `readRawAddr`: `data` is the byte sequence the request's `io.ReadAtLeast`
call obtained (fewer than 5 bytes means that call failed).  Checks version,
command and address type, computes the expected request length, requires the
bytes read to match it exactly, and returns the bytes from offset 3 on. -/
def readRawAddr (data : List Nat) : Except String (List Nat) :=
  if data.length < 5 then .error "unexpected EOF"
  else if data.getD 0 0 ≠ socksVer5 then
    .error ("expect version 5, got: " ++ toString (data.getD 0 0))
  else if data.getD 1 0 ≠ cmdConnect then .error "not supported socks command"
  else if data.getD 3 0 = typeIPv4 then
    if data.length ≠ 4 + 4 + 2 then .error "fail to parse socks request header"
    else .ok (data.drop 3)
  else if data.getD 3 0 = typeIPv6 then
    if data.length ≠ 4 + 16 + 2 then .error "fail to parse socks request header"
    else .ok (data.drop 3)
  else if data.getD 3 0 = typeDomain then
    if data.length ≠ 4 + 1 + 2 + data.getD 4 0 then
      .error "fail to parse socks request header"
    else .ok (data.drop 3)
  else .error "not supported address type"

/-! ## Server-side address decode (conn.go readTargetHost), with the
string-building helpers of net.IP.String, strconv.Itoa and net.JoinHostPort.
Go strings are byte strings, so hosts and ports are `List Nat` here. -/

/-- Decimal digits of a number, as `strconv.Itoa` produces them. -/
def decStr (n : Nat) : List Nat :=
  if n < 10 then [48 + n]
  else decStr (n / 10) ++ [48 + n % 10]
termination_by n
decreasing_by exact Nat.div_lt_self (by omega) (by omega)

/-- One lowercase hexadecimal digit character code. -/
def hexDigitB (d : Nat) : Nat := if d < 10 then 48 + d else 87 + d

/-- Minimal lowercase hexadecimal digits of a number, as Go's appendHex. -/
def hexStr (n : Nat) : List Nat :=
  if n < 16 then [hexDigitB n]
  else hexStr (n / 16) ++ [hexDigitB (n % 16)]
termination_by n
decreasing_by exact Nat.div_lt_self (by omega) (by omega)

/-- Two-digit-per-byte hex dump used by net.IP.String for odd lengths. -/
def hexAll (p : List Nat) : List Nat :=
  p.flatMap fun b => [hexDigitB (b / 16), hexDigitB (b % 16)]

/-- `net.IP.To4`: a 4-byte address, or the low 4 bytes of an IPv4-mapped
16-byte address. -/
def ipTo4 (p : List Nat) : Option (List Nat) :=
  if p.length = 4 then some p
  else if p.length = 16 && (p.take 10).all (· == 0) &&
          p.getD 10 0 == 255 && p.getD 11 0 == 255 then some (p.drop 12)
  else none

/-- Dotted-quad rendering of a 4-byte address. -/
def ip4Dotted (p : List Nat) : List Nat :=
  decStr (p.getD 0 0) ++ [46] ++ decStr (p.getD 1 0) ++ [46] ++
  decStr (p.getD 2 0) ++ [46] ++ decStr (p.getD 3 0)

/-- The eight big-endian 16-bit groups of a 16-byte IPv6 address. -/
def ip6Groups (p : List Nat) : List Nat :=
  (List.range 8).map fun i => (p.getD (2 * i) 0) <<< 8 ||| p.getD (2 * i + 1) 0

/-- End of the run of zero groups starting at group `j`. -/
def zeroRunEnd (gs : List Nat) (j : Nat) : Nat :=
  if h : j < 8 ∧ gs.getD j 1 = 0 then zeroRunEnd gs (j + 1) else j
termination_by 8 - j
decreasing_by omega

/-- The first longest run of zero groups, scanned as net.IP.String does
(strictly longer runs win, the scan resumes after a found run). -/
def bestZeroRun (gs : List Nat) (i e0 e1 : Nat) : Nat × Nat :=
  if h8 : 8 ≤ i then (e0, e1)
  else
    let j := zeroRunEnd gs i
    if hj : i < j ∧ e1 - e0 < j - i then bestZeroRun gs (j + 1) i j
    else bestZeroRun gs (i + 1) e0 e1
termination_by 8 - i
decreasing_by
  · omega
  · omega

/-- Renders the hex groups with the `::` compression at groups `e0..e1`
(`e0 = 8` means no compression); `fuel` bounds the loop. -/
def ip6Render (gs : List Nat) (e0 e1 : Nat) : Nat → Nat → List Nat
  | 0, _ => []
  | fuel + 1, i =>
    if 8 ≤ i then []
    else if i = e0 then
      if 8 ≤ e1 then [58, 58]
      else [58, 58] ++ hexStr (gs.getD e1 0) ++ ip6Render gs e0 e1 fuel (e1 + 1)
    else
      (if 0 < i then [58] else []) ++ hexStr (gs.getD i 0) ++ ip6Render gs e0 e1 fuel (i + 1)

/-- RFC 5952 rendering of a 16-byte IPv6 address (zero compression of the
first longest run of at least two zero groups). -/
def ip6String (p : List Nat) : List Nat :=
  let gs := ip6Groups p
  let r := bestZeroRun gs 0 0 0
  if r.2 - r.1 ≤ 1 then ip6Render gs 8 8 9 0
  else ip6Render gs r.1 r.2 9 0

/-- `net.IP.String`: dotted quad for 4-byte and IPv4-mapped addresses,
compressed hex groups for other 16-byte addresses. -/
def ipString (p : List Nat) : List Nat :=
  if p.length = 0 then [60, 110, 105, 108, 62]
  else
    match ipTo4 p with
    | some q => ip4Dotted q
    | none => if p.length = 16 then ip6String p else 63 :: hexAll p

/-- `binary.BigEndian.Uint16` of two bytes. -/
def be16 (hi lo : Nat) : Nat := hi <<< 8 ||| lo

/-- `net.JoinHostPort`: bracket the host when it contains a colon. -/
def joinHostPort (host port : List Nat) : List Nat :=
  if host.contains 58 then 91 :: host ++ [93, 58] ++ port
  else host ++ [58] ++ port

/-- `readTargetHost`: decode the address record from the decrypted byte
stream `data`: one type byte; then the fixed-size address plus 2 port bytes
(for a domain, a length byte first).  Returns the joined host string and the
unconsumed remainder of the stream. -/
def readTargetHost (data : List Nat) : Except String (List Nat × List Nat) :=
  match data with
  | [] => .error "EOF"
  | atyp :: r1 =>
    if atyp = typeIPv4 then
      if r1.length < 4 + 2 then .error "unexpected EOF"
      else
        .ok (joinHostPort (ipString (r1.take 4))
              (decStr (be16 (r1.getD 4 0) (r1.getD 5 0))), r1.drop 6)
    else if atyp = typeIPv6 then
      if r1.length < 16 + 2 then .error "unexpected EOF"
      else
        .ok (joinHostPort (ipString (r1.take 16))
              (decStr (be16 (r1.getD 16 0) (r1.getD 17 0))), r1.drop 18)
    else if atyp = typeDomain then
      match r1 with
      | [] => .error "EOF"
      | l :: r2 =>
        if r2.length < l + 2 then .error "unexpected EOF"
        else
          .ok (joinHostPort (r2.take l)
                (decStr (be16 (r2.getD l 0) (r2.getD (l + 1) 0))), r2.drop (l + 2))
    else .error "not supported address type"

/-! ## Helper lemmas -/

/-- The SHA-256 digest always has 32 bytes. -/
theorem sha256_length (msg : List Nat) : (sha256 msg).length = 32 := by
  simp [sha256, w2b]

/-- The derived key's length is the method's key length capped at the digest
size. -/
theorem toKey_length (m p : String) :
    (toKey m p).length = min ((List.lookup m keyLenMap).getD 32) 32 := by
  simp [toKey, List.length_take, sha256_length]

/-- Every key produced by `toKey` passes `aes.NewCipher`'s key-size check. -/
theorem toKey_valid (m p : String) : validAesKeyLen (toKey m p).length = true := by
  rw [toKey_length]
  by_cases h1 : m = "aes-128-cfb"
  · simp [keyLenMap, List.lookup, h1, validAesKeyLen]
  by_cases h2 : m = "aes-192-cfb"
  · simp [keyLenMap, List.lookup, h1, h2, validAesKeyLen]
  by_cases h3 : m = "aes-256-cfb"
  · simp [keyLenMap, List.lookup, h1, h2, h3, validAesKeyLen]
  · have b1 : (m == "aes-128-cfb") = false := beq_eq_false_iff_ne.mpr h1
    have b2 : (m == "aes-192-cfb") = false := beq_eq_false_iff_ne.mpr h2
    have b3 : (m == "aes-256-cfb") = false := beq_eq_false_iff_ne.mpr h3
    simp [keyLenMap, List.lookup, b1, b2, b3, validAesKeyLen]

/-- `XORKeyStream` produces exactly one output byte per input byte. -/
theorem xorKeyStream_length (s : CFB) (P : List Nat) :
    (xorKeyStream s P).1.length = P.length := by
  induction P generalizing s with
  | nil => rfl
  | cons b bs ih => simp [xorKeyStream, ih]

/-- CFB round trip: a decrypt stream state that agrees with an encrypt stream
state on everything but the direction flag recovers the plaintext from the
encrypt stream's output, because both feed the same ciphertext byte back into
the register and the keystream XOR is self-inverse. -/
theorem xorKeyStream_roundtrip_aux (P : List Nat) :
    ∀ (E : List Nat → List Nat) (nx ot : List Nat) (u : Nat),
      (xorKeyStream ⟨E, nx, ot, u, true⟩
        (xorKeyStream ⟨E, nx, ot, u, false⟩ P).1).1 = P := by
  induction P with
  | nil => intro E nx ot u; rfl
  | cons p ps ih =>
    intro E nx ot u
    by_cases h : u = ot.length
    · simp only [xorKeyStream, cfbRefill, cfbByteCore, h, if_pos rfl, if_true]
      simp only [Nat.xor_cancel_right, Bool.false_eq_true, if_false, if_true, ih]
    · simp only [xorKeyStream, cfbRefill, cfbByteCore, h, if_false, if_neg h]
      simp only [Nat.xor_cancel_right, Bool.false_eq_true, if_false, if_true, ih]

/-! ## Claim theorems -/

/-- C5: for every algorithm name and password, `toKey` (the spec's DeriveKey)
is deterministic, and the key length is 16, 24 or 32 bytes for the three
recognized stream-cipher names, and exactly 32 bytes for every unrecognized
name. -/
theorem toKey_spec (m p q : String)
    (hm : m ≠ "aes-128-cfb" ∧ m ≠ "aes-192-cfb" ∧ m ≠ "aes-256-cfb") :
    (toKey "aes-128-cfb" p).length = 16 ∧
    (toKey "aes-192-cfb" p).length = 24 ∧
    (toKey "aes-256-cfb" p).length = 32 ∧
    (toKey m p).length = 32 ∧
    (p = q → toKey m p = toKey m q ∧ toKey "aes-256-cfb" p = toKey "aes-256-cfb" q) := by
  obtain ⟨h1, h2, h3⟩ := hm
  have b1 : (m == "aes-128-cfb") = false := beq_eq_false_iff_ne.mpr h1
  have b2 : (m == "aes-192-cfb") = false := beq_eq_false_iff_ne.mpr h2
  have b3 : (m == "aes-256-cfb") = false := beq_eq_false_iff_ne.mpr h3
  refine ⟨?_, ?_, ?_, ?_, ?_⟩
  · rw [toKey_length]; simp [keyLenMap, List.lookup]
  · rw [toKey_length]; simp [keyLenMap, List.lookup]
  · rw [toKey_length]; simp [keyLenMap, List.lookup]
  · rw [toKey_length]; simp [keyLenMap, List.lookup, b1, b2, b3]
  · rintro rfl; exact ⟨rfl, rfl⟩

/-- Witness for C5 at a concrete unrecognized name and password. -/
theorem toKey_spec_witness :
    ("chacha20" ≠ "aes-128-cfb" ∧ "chacha20" ≠ "aes-192-cfb" ∧
      "chacha20" ≠ "aes-256-cfb") ∧
    (toKey "chacha20" "pw").length = 32 ∧ (toKey "aes-128-cfb" "pw").length = 16 :=
  ⟨by decide,
   (toKey_spec "chacha20" "pw" "pw" (by decide)).2.2.2.1,
   (toKey_spec "chacha20" "pw" "pw" (by decide)).1⟩

/-- C6: for every cipher built from a derived key, `initDecrypt` (the spec's
BeginDecrypt) fails with the invalid-IV-length error exactly when the IV's
length differs from the 16-byte block size, and otherwise initializes the
decrypt keystream from the block function and the IV. -/
theorem initDecrypt_spec (E : List Nat → List Nat) (m p : String) (iv : List Nat) :
    (iv.length ≠ 16 →
      initDecrypt (NewCipher E m p) iv =
        .error ("Invalid IV length: " ++ toString iv.length)) ∧
    (iv.length = 16 →
      initDecrypt (NewCipher E m p) iv =
        .ok { NewCipher E m p with dec := some (newCFBDecrypter E iv) }) := by
  have hv := toKey_valid m p
  constructor
  · intro hne
    simp [initDecrypt, NewCipher, hv, aesBlockSize, hne]
  · intro heq
    simp [initDecrypt, NewCipher, hv, aesBlockSize, heq]

/-- Witness for C6: the empty IV (length 0) is rejected, a 16-byte IV is
accepted. -/
theorem initDecrypt_spec_witness :
    (([] : List Nat).length ≠ 16 ∧
      initDecrypt (NewCipher id "aes-256-cfb" "pw") [] =
        .error ("Invalid IV length: " ++ toString ([] : List Nat).length)) ∧
    ((List.replicate 16 0).length = 16 ∧
      initDecrypt (NewCipher id "aes-256-cfb" "pw") (List.replicate 16 0) =
        .ok { NewCipher id "aes-256-cfb" "pw" with
                dec := some (newCFBDecrypter id (List.replicate 16 0)) }) :=
  ⟨⟨by decide, (initDecrypt_spec id "aes-256-cfb" "pw" []).1 (by decide)⟩,
   ⟨by simp, (initDecrypt_spec id "aes-256-cfb" "pw" (List.replicate 16 0)).2 (by simp)⟩⟩

/-- C7: for every plaintext, every block function (standing for AES under the
derived key) and every block-size IV, decrypting the encryption of the
plaintext with both keystreams initialized from the same key and IV
reproduces the plaintext exactly. -/
theorem encrypt_then_decrypt_id (E : List Nat → List Nat) (iv P : List Nat)
    (_hiv : iv.length = 16) :
    (xorKeyStream (newCFBDecrypter E iv)
      (xorKeyStream (newCFBEncrypter E iv) P).1).1 = P := by
  simpa [newCFBEncrypter, newCFBDecrypter, aesBlockSize] using
    xorKeyStream_roundtrip_aux P E iv (List.replicate 16 0) 16

/-- Witness for C7 at a concrete block function, IV and plaintext. -/
theorem encrypt_then_decrypt_id_witness :
    (List.replicate 16 3).length = 16 ∧
    (xorKeyStream (newCFBDecrypter id (List.replicate 16 3))
      (xorKeyStream (newCFBEncrypter id (List.replicate 16 3)) [10, 20, 30]).1).1 =
      [10, 20, 30] :=
  ⟨by simp, encrypt_then_decrypt_id id (List.replicate 16 3) [10, 20, 30] (by simp)⟩

/-- C9: for every pool state with the fixed 4096-byte buffer size, `Put` of a
buffer of any other length is a no-op, `Get` on an empty pool returns a fresh
4096-byte buffer without touching the pool (and without blocking: `Get` is a
total function), and both operations preserve the invariant that every buffer
stored in the pool has exactly the fixed size; the process-wide pool starts
empty with that buffer size. -/
theorem bytePool_spec (bp : BytePool) (b : List Nat) (hsz : bp.bufSize = 4096) :
    (b.length ≠ 4096 → bp.Put b = bp) ∧
    (bp.pool = [] → bp.Get = (List.replicate 4096 0, bp)) ∧
    ((∀ x ∈ bp.pool, x.length = 4096) → ∀ x ∈ (bp.Put b).pool, x.length = 4096) ∧
    ((∀ x ∈ bp.pool, x.length = 4096) → ∀ x ∈ bp.Get.2.pool, x.length = 4096) ∧
    bytePool.bufSize = 4096 ∧ bytePool.pool = [] := by
  refine ⟨?_, ?_, ?_, ?_, by decide, rfl⟩
  · intro hb
    simp [BytePool.Put, hsz, hb]
  · intro hempty
    have hg : bp.Get = (List.replicate bp.bufSize 0, bp) := by
      unfold BytePool.Get
      rw [hempty]
    rw [hg, hsz]
  · intro hinv x hx
    by_cases hb : b.length = bp.bufSize
    · by_cases hcap : bp.pool.length < bp.poolCap
      · simp only [BytePool.Put, hb, ne_eq, not_true_eq_false, if_false, hcap, if_true] at hx
        rcases List.mem_append.mp hx with h | h
        · exact hinv x h
        · simp only [List.mem_singleton] at h
          rw [h, hb, hsz]
      · simp only [BytePool.Put, hb, ne_eq, not_true_eq_false, if_false, hcap] at hx
        exact hinv x hx
    · simp only [BytePool.Put, ne_eq, hb, not_false_eq_true, if_true] at hx
      exact hinv x hx
  · intro hinv x hx
    match hp : bp.pool with
    | [] =>
      simp only [BytePool.Get, hp] at hx
      exact hinv x (hp ▸ hx)
    | y :: rest =>
      simp only [BytePool.Get, hp] at hx
      exact hinv x (by rw [hp]; exact List.mem_cons_of_mem y hx)

/-- Witness for C9: putting a 1-byte buffer into the initial pool leaves it
unchanged. -/
theorem bytePool_spec_witness :
    bytePool.bufSize = 4096 ∧
    (([1] : List Nat).length ≠ 4096 ∧ bytePool.Put [1] = bytePool) :=
  ⟨by decide, by decide, (bytePool_spec bytePool [1] (by decide)).1 (by decide)⟩

/-- Behaviour of the ciphertext-reading half of `Conn.Read` when the
transport delivers `m` bytes, `0 < m ≤ min (len buf) available`. -/
theorem connReadBody_spec (c : Conn) (st : CFB) (b : List Nat) (m : Nat)
    (terr : Option String) (hm0 : 0 < m) (hmb : m ≤ b.length)
    (hmi : m ≤ c.input.length) :
    connReadBody c st b m terr =
      { n := m, err := terr,
        buf := (xorKeyStream st (c.input.take m)).1 ++ b.drop m,
        conn := { input := c.input.drop m,
                  cipher := { c.cipher with
                                dec := some (xorKeyStream st (c.input.take m)).2 } } } := by
  have hmm : min m (min b.length c.input.length) = m := by omega
  have hm0' : ¬ m = 0 := by omega
  simp [connReadBody, hmm, hm0']

/-- C1: for every encrypted connection, the first `Write` call hands the
fresh block-size IV followed by the encryption of the payload to one
underlying transport write, every later `Write` hands over ciphertext only,
and in both cases `Write` returns the count the transport write reported —
`len(iv) + len(b)` bytes of IV-plus-ciphertext are on the wire on a fully
successful first write and `len(b)` thereafter, not a caller-payload count. -/
theorem connWrite_spec (c : Conn) (b ivr : List Nat) (wn : Nat) (werr : Option String)
    (hiv : ivr.length = 16) :
    (c.cipher.enc = none → validAesKeyLen c.cipher.key.length = true →
      (connWrite c b ivr wn werr).sent =
        ivr ++ (xorKeyStream (newCFBEncrypter c.cipher.blockE ivr) b).1 ∧
      (connWrite c b ivr wn werr).sent.length = 16 + b.length ∧
      (connWrite c b ivr wn werr).n = wn ∧
      (connWrite c b ivr wn werr).err = werr) ∧
    (∀ st, c.cipher.enc = some st →
      (connWrite c b ivr wn werr).sent = (xorKeyStream st b).1 ∧
      (connWrite c b ivr wn werr).sent.length = b.length ∧
      (connWrite c b ivr wn werr).n = wn ∧
      (connWrite c b ivr wn werr).err = werr) := by
  constructor
  · intro henc hk
    refine ⟨?_, ?_, ?_, ?_⟩ <;>
      simp [connWrite, henc, initEncrypt, hk, xorKeyStream_length, hiv]
  · intro st henc
    refine ⟨?_, ?_, ?_, ?_⟩ <;>
      simp [connWrite, henc, xorKeyStream_length]

/-- Demo key of a valid AES length, demo cipher and demo connections used by
the closed witness theorems. -/
def demoKey : List Nat := List.replicate 16 0

/-- Demo cipher: fresh states, identity block function. -/
def demoCipher : Cipher := { blockE := id, enc := none, dec := none, key := demoKey }

/-- Demo connection with no pending input and a fresh cipher. -/
def demoConn : Conn := { input := [], cipher := demoCipher }

/-- Demo connection whose decrypt state is already initialized and whose
transport has three pending bytes. -/
def demoConnD : Conn :=
  { input := [5, 6, 7],
    cipher := { blockE := id, enc := none,
                dec := some (newCFBDecrypter id (List.replicate 16 1)),
                key := demoKey } }

/-- Witness for C1: a concrete first write sends the IV plus two ciphertext
bytes and returns the transport's count. -/
theorem connWrite_spec_witness :
    (List.replicate 16 7 : List Nat).length = 16 ∧
    ((connWrite demoConn [1, 2] (List.replicate 16 7) 18 none).sent =
        List.replicate 16 7 ++
          (xorKeyStream (newCFBEncrypter demoConn.cipher.blockE (List.replicate 16 7))
            [1, 2]).1 ∧
      (connWrite demoConn [1, 2] (List.replicate 16 7) 18 none).sent.length =
        16 + ([1, 2] : List Nat).length ∧
      (connWrite demoConn [1, 2] (List.replicate 16 7) 18 none).n = 18 ∧
      (connWrite demoConn [1, 2] (List.replicate 16 7) 18 none).err = none) :=
  ⟨by simp,
   (connWrite_spec demoConn [1, 2] (List.replicate 16 7) 18 none (by simp)).1 rfl rfl⟩

/-- C2: for every encrypted connection whose decrypt state is uninitialized,
`Read` first consumes exactly 16 bytes from the transport as the IV and
initializes decryption; if that read or the initialization fails, `Read`
returns the error with count 0 and the caller's buffer completely unchanged.
Once the decrypt state is ready, `Read` performs one transport read of up to
`len(buf)` ciphertext bytes, returns its count `m` with the first `m` buffer
bytes equal to the decryption of exactly those bytes, and passes the
transport's error through unchanged without blocking until the buffer is
full. -/
theorem connRead_spec (c : Conn) (b : List Nat) (m : Nat) (terr : Option String) :
    (c.cipher.dec = none → c.input.length < 16 →
      connRead c b m terr =
        { n := 0, err := some "unexpected EOF", buf := b,
          conn := { c with input := [] } }) ∧
    (c.cipher.dec = none → 16 ≤ c.input.length →
      validAesKeyLen c.cipher.key.length = false →
      connRead c b m terr =
        { n := 0,
          err := some ("crypto/aes: invalid key size " ++ toString c.cipher.key.length),
          buf := b, conn := { c with input := c.input.drop 16 } }) ∧
    (c.cipher.dec = none → 16 ≤ c.input.length →
      validAesKeyLen c.cipher.key.length = true →
      0 < m → m ≤ b.length → 16 + m ≤ c.input.length →
      (connRead c b m terr).n = m ∧
      (connRead c b m terr).err = terr ∧
      (connRead c b m terr).buf =
        (xorKeyStream (newCFBDecrypter c.cipher.blockE (c.input.take 16))
          ((c.input.drop 16).take m)).1 ++ b.drop m ∧
      (connRead c b m terr).conn.input = (c.input.drop 16).drop m) ∧
    (∀ st, c.cipher.dec = some st → 0 < m → m ≤ b.length → m ≤ c.input.length →
      (connRead c b m terr).n = m ∧
      (connRead c b m terr).err = terr ∧
      (connRead c b m terr).buf = (xorKeyStream st (c.input.take m)).1 ++ b.drop m ∧
      (connRead c b m terr).conn.input = c.input.drop m) := by
  refine ⟨?_, ?_, ?_, ?_⟩
  · intro hdec hlt
    simp [connRead, hdec, aesBlockSize, hlt]
  · intro hdec h16 hk
    have hnlt : ¬ c.input.length < 16 := by omega
    simp [connRead, hdec, hnlt, initDecrypt, hk, aesBlockSize]
  · intro hdec h16 hk hm0 hmb hmi
    have hnlt : ¬ c.input.length < aesBlockSize := by unfold aesBlockSize; omega
    have hivlen : (c.input.take aesBlockSize).length = aesBlockSize := by
      simp only [List.length_take, aesBlockSize]; omega
    have hrw : connRead c b m terr =
        connReadBody
          { input := c.input.drop aesBlockSize,
            cipher := { c.cipher with
                          dec := some (newCFBDecrypter c.cipher.blockE
                                        (c.input.take aesBlockSize)) } }
          (newCFBDecrypter c.cipher.blockE (c.input.take aesBlockSize)) b m terr := by
      simp [connRead, hdec, hnlt, initDecrypt, hk, hivlen]
    have hmi' : m ≤ (c.input.drop aesBlockSize).length := by
      simp only [List.length_drop, aesBlockSize]; omega
    rw [hrw, connReadBody_spec _ _ _ _ _ hm0 hmb hmi']
    exact ⟨rfl, rfl, rfl, rfl⟩
  · intro st hdec hm0 hmb hmi
    have hrw : connRead c b m terr = connReadBody c st b m terr := by
      simp [connRead, hdec]
    rw [hrw, connReadBody_spec _ _ _ _ _ hm0 hmb hmi]
    exact ⟨rfl, rfl, rfl, rfl⟩

/-- Witness for C2: a concrete read of two of three pending ciphertext bytes
on an initialized connection. -/
theorem connRead_spec_witness :
    demoConnD.cipher.dec = some (newCFBDecrypter id (List.replicate 16 1)) ∧
    (0 : Nat) < 2 ∧ (2 : Nat) ≤ ([0, 0, 0] : List Nat).length ∧
    (2 : Nat) ≤ demoConnD.input.length ∧
    ((connRead demoConnD [0, 0, 0] 2 none).n = 2 ∧
      (connRead demoConnD [0, 0, 0] 2 none).err = none ∧
      (connRead demoConnD [0, 0, 0] 2 none).buf =
        (xorKeyStream (newCFBDecrypter id (List.replicate 16 1))
          (demoConnD.input.take 2)).1 ++ ([0, 0, 0] : List Nat).drop 2 ∧
      (connRead demoConnD [0, 0, 0] 2 none).conn.input = demoConnD.input.drop 2) :=
  ⟨rfl, by decide, by decide, by decide,
   (connRead_spec demoConnD [0, 0, 0] 2 none).2.2.2
     (newCFBDecrypter id (List.replicate 16 1)) rfl (by decide) (by decide) (by decide)⟩

/-- C8: for every greeting byte sequence obtained by the handshake's read, a
non-5 version byte fails with the version-mismatch error; otherwise the total
bytes read must equal 2 plus the method count or the handshake fails with the
malformed-header error; on success the handshake writes back exactly the two
bytes 5, 0.  In particular the greeting 5, 2, 0, 1 succeeds with that
reply. -/
theorem handsake_spec (data : List Nat) (h2 : 2 ≤ data.length) :
    (data.getD 0 0 ≠ 5 →
      handsake data = .error ("expect version 5, got: " ++ toString (data.getD 0 0))) ∧
    (data.getD 0 0 = 5 → data.length ≠ data.getD 1 0 + 2 →
      handsake data = .error "fail to parse socks request header") ∧
    (data.getD 0 0 = 5 → data.length = data.getD 1 0 + 2 →
      handsake data = .ok [5, 0]) ∧
    handsake [5, 2, 0, 1] = .ok [5, 0] := by
  have hnlt : ¬ data.length < 2 := by omega
  refine ⟨?_, ?_, ?_, rfl⟩
  · intro hv
    simp only [handsake, socksVer5]
    rw [if_neg hnlt, if_pos hv]
  · intro hv hlen
    have hv' : ¬ data.getD 0 0 ≠ 5 := by omega
    simp only [handsake, socksVer5]
    rw [if_neg hnlt, if_neg hv', if_pos hlen]
  · intro hv hlen
    have hv' : ¬ data.getD 0 0 ≠ 5 := by omega
    have hlen' : ¬ data.length ≠ data.getD 1 0 + 2 := by omega
    simp only [handsake, socksVer5]
    rw [if_neg hnlt, if_neg hv', if_neg hlen']

/-- Witness for C8 at the concrete greeting 5, 2, 0, 1. -/
theorem handsake_spec_witness :
    (2 ≤ ([5, 2, 0, 1] : List Nat).length) ∧ handsake [5, 2, 0, 1] = .ok [5, 0] :=
  ⟨by decide, (handsake_spec [5, 2, 0, 1] (by decide)).2.2.2⟩

/-- C3: for every version-5 request byte sequence obtained by the request
read, a non-CONNECT command fails with the unsupported-command error; an
address type outside 1, 3, 4 fails with the unsupported-address-type error;
otherwise the total bytes read must equal exactly 10 (IPv4), 22 (IPv6) or
7 plus the length byte at offset 4 (domain), failing with the
malformed-header error on mismatch, and on success the request bytes from
offset 3 to the end are returned.  In particular the concrete CONNECT
request to 127.0.0.1:8080 parses to its address bytes with no error. -/
theorem readRawAddr_spec (data : List Nat) (h5 : 5 ≤ data.length)
    (hv : data.getD 0 0 = 5) :
    (data.getD 1 0 ≠ 1 → readRawAddr data = .error "not supported socks command") ∧
    (data.getD 1 0 = 1 →
      ¬(data.getD 3 0 = 1 ∨ data.getD 3 0 = 3 ∨ data.getD 3 0 = 4) →
      readRawAddr data = .error "not supported address type") ∧
    (data.getD 1 0 = 1 → data.getD 3 0 = 1 →
      readRawAddr data =
        if data.length = 4 + 4 + 2 then .ok (data.drop 3)
        else .error "fail to parse socks request header") ∧
    (data.getD 1 0 = 1 → data.getD 3 0 = 4 →
      readRawAddr data =
        if data.length = 4 + 16 + 2 then .ok (data.drop 3)
        else .error "fail to parse socks request header") ∧
    (data.getD 1 0 = 1 → data.getD 3 0 = 3 →
      readRawAddr data =
        if data.length = 4 + 1 + 2 + data.getD 4 0 then .ok (data.drop 3)
        else .error "fail to parse socks request header") ∧
    readRawAddr [5, 1, 0, 1, 127, 0, 0, 1, 31, 144] = .ok [1, 127, 0, 0, 1, 31, 144] := by
  have hnlt : ¬ data.length < 5 := by omega
  have hv' : ¬ data.getD 0 0 ≠ 5 := by omega
  refine ⟨?_, ?_, ?_, ?_, ?_, rfl⟩
  · intro hc
    simp only [readRawAddr, socksVer5, cmdConnect]
    rw [if_neg hnlt, if_neg hv', if_pos hc]
  · intro hc ht
    push_neg at ht
    obtain ⟨ht1, ht3, ht4⟩ := ht
    have hc' : ¬ data.getD 1 0 ≠ 1 := by omega
    simp only [readRawAddr, socksVer5, cmdConnect, typeIPv4, typeIPv6, typeDomain]
    rw [if_neg hnlt, if_neg hv', if_neg hc', if_neg ht1, if_neg ht4, if_neg ht3]
  · intro hc ht
    have hc' : ¬ data.getD 1 0 ≠ 1 := by omega
    simp only [readRawAddr, socksVer5, cmdConnect, typeIPv4, typeIPv6, typeDomain]
    rw [if_neg hnlt, if_neg hv', if_neg hc', if_pos ht]
    by_cases hl : data.length = 4 + 4 + 2 <;> simp [hl]
  · intro hc ht
    have hc' : ¬ data.getD 1 0 ≠ 1 := by omega
    have ht1 : ¬ data.getD 3 0 = 1 := by omega
    simp only [readRawAddr, socksVer5, cmdConnect, typeIPv4, typeIPv6, typeDomain]
    rw [if_neg hnlt, if_neg hv', if_neg hc', if_neg ht1, if_pos ht]
    by_cases hl : data.length = 4 + 16 + 2 <;> simp [hl]
  · intro hc ht
    have hc' : ¬ data.getD 1 0 ≠ 1 := by omega
    have ht1 : ¬ data.getD 3 0 = 1 := by omega
    have ht4 : ¬ data.getD 3 0 = 4 := by omega
    simp only [readRawAddr, socksVer5, cmdConnect, typeIPv4, typeIPv6, typeDomain]
    rw [if_neg hnlt, if_neg hv', if_neg hc', if_neg ht1, if_neg ht4, if_pos ht]
    by_cases hl : data.length = 4 + 1 + 2 + data.getD 4 0 <;> simp [hl]

/-- Witness for C3 at the concrete IPv4 CONNECT request. -/
theorem readRawAddr_spec_witness :
    (5 ≤ ([5, 1, 0, 1, 127, 0, 0, 1, 31, 144] : List Nat).length ∧
      ([5, 1, 0, 1, 127, 0, 0, 1, 31, 144] : List Nat).getD 0 0 = 5) ∧
    readRawAddr [5, 1, 0, 1, 127, 0, 0, 1, 31, 144] = .ok [1, 127, 0, 0, 1, 31, 144] :=
  ⟨⟨by decide, by decide⟩,
   (readRawAddr_spec [5, 1, 0, 1, 127, 0, 0, 1, 31, 144] (by decide) (by decide)).2.2.2.2.2⟩

/-- C10 (implicit): the request parser re-checks the version byte first — for
every request byte sequence whose byte 0 is not 5, `readRawAddr` fails with
the version-mismatch error, whatever the command, address-type and length
bytes hold. -/
theorem readRawAddr_version_first (data : List Nat) (h5 : 5 ≤ data.length)
    (hv : data.getD 0 0 ≠ 5) :
    readRawAddr data = .error ("expect version 5, got: " ++ toString (data.getD 0 0)) := by
  have hnlt : ¬ data.length < 5 := by omega
  simp only [readRawAddr, socksVer5]
  rw [if_neg hnlt, if_pos hv]

/-- Witness for C10: a version-4 request with an otherwise valid CONNECT
layout is rejected on the version byte. -/
theorem readRawAddr_version_first_witness :
    (5 ≤ ([4, 1, 0, 1, 127, 0, 0, 1, 31, 144] : List Nat).length ∧
      ([4, 1, 0, 1, 127, 0, 0, 1, 31, 144] : List Nat).getD 0 0 ≠ 5) ∧
    readRawAddr [4, 1, 0, 1, 127, 0, 0, 1, 31, 144] =
      .error ("expect version 5, got: " ++
        toString (([4, 1, 0, 1, 127, 0, 0, 1, 31, 144] : List Nat).getD 0 0)) :=
  ⟨⟨by decide, by decide⟩,
   readRawAddr_version_first [4, 1, 0, 1, 127, 0, 0, 1, 31, 144] (by decide) (by decide)⟩

/-- C4: for every decrypted byte stream handed to the server-side address
decoder, the decoder consumes 1 type byte, then 4+2 more bytes for IPv4,
16+2 more for IPv6, and for a domain a length byte L followed by L+2 more;
a type tag outside 1, 3, 4 fails with the unsupported-address-type error;
on success it returns the numeric IPv4/IPv6 text or the literal domain text
joined with the decimal rendering of the big-endian 2-byte port (the second
component is the unconsumed remainder of the stream). -/
theorem readTargetHost_spec :
    (∀ t rest, ¬(t = 1 ∨ t = 3 ∨ t = 4) →
      readTargetHost (t :: rest) = .error "not supported address type") ∧
    (∀ rest : List Nat, 6 ≤ rest.length →
      readTargetHost (1 :: rest) =
        .ok (joinHostPort (ipString (rest.take 4))
              (decStr (be16 (rest.getD 4 0) (rest.getD 5 0))), rest.drop 6)) ∧
    (∀ rest : List Nat, 18 ≤ rest.length →
      readTargetHost (4 :: rest) =
        .ok (joinHostPort (ipString (rest.take 16))
              (decStr (be16 (rest.getD 16 0) (rest.getD 17 0))), rest.drop 18)) ∧
    (∀ (l : Nat) (r2 : List Nat), l + 2 ≤ r2.length →
      readTargetHost (3 :: l :: r2) =
        .ok (joinHostPort (r2.take l)
              (decStr (be16 (r2.getD l 0) (r2.getD (l + 1) 0))), r2.drop (l + 2))) := by
  refine ⟨?_, ?_, ?_, ?_⟩
  · intro t rest ht
    push_neg at ht
    obtain ⟨ht1, ht3, ht4⟩ := ht
    simp [readTargetHost, typeIPv4, typeIPv6, typeDomain, ht1, ht3, ht4]
  · intro rest hlen
    have hnlt : ¬ rest.length < 4 + 2 := by omega
    simp [readTargetHost, typeIPv4, hnlt]
  · intro rest hlen
    have hnlt : ¬ rest.length < 16 + 2 := by omega
    simp [readTargetHost, typeIPv4, typeIPv6, hnlt]
  · intro l r2 hlen
    have hnlt : ¬ r2.length < l + 2 := by omega
    simp [readTargetHost, typeIPv4, typeIPv6, typeDomain, hnlt]

/-- Witness for C4: decoding the IPv4 record for 127.0.0.1:8080. -/
theorem readTargetHost_spec_witness :
    (6 ≤ ([127, 0, 0, 1, 31, 144] : List Nat).length) ∧
    readTargetHost (1 :: [127, 0, 0, 1, 31, 144]) =
      .ok (joinHostPort (ipString (([127, 0, 0, 1, 31, 144] : List Nat).take 4))
            (decStr (be16 (([127, 0, 0, 1, 31, 144] : List Nat).getD 4 0)
                          (([127, 0, 0, 1, 31, 144] : List Nat).getD 5 0))),
           ([127, 0, 0, 1, 31, 144] : List Nat).drop 6) :=
  ⟨by decide, readTargetHost_spec.2.1 [127, 0, 0, 1, 31, 144] (by decide)⟩
